import Mathlib

/-!
Verification of the NexaAgent chatbot backend (src/backend.py) against its
natural-language specification.

The embedding models, from the source:
* the `calculator` tool (src/backend.py lines 61-74), with Python floats
  rendered as exact rationals;
* the `delete_thread` helper (lines 127-149), with the SQLite database
  rendered as an association list from table name to the list of
  thread_id values of its rows, plus a fault-injection set modelling
  unexpected sqlite3.OperationalError faults on existing tables;
* the `generate_response` streaming generator inside `chat_endpoint`
  (lines 171-218), with a run of `chatbot.stream` rendered as the list of
  message chunks it yields followed by an optional raised exception;
* the message-formatting loop of `get_thread_messages` (lines 250-271).
-/

namespace NexaAgent

/-- Result of the calculator tool: the Python dict is either
a result payload or an error payload, never both. -/
inductive CalcResult where
  | result (r : ℚ)
  | error (msg : String)
deriving DecidableEq

/-- Embedding of `calculator` (src/backend.py lines 61-74).  Python floats
are modelled as exact rationals; the division-by-zero guard
`if second_num == 0` becomes `b = 0`.  The Python try/except wrapper is
total here: exact rational arithmetic raises no computation fault. -/
def calculator (first_num second_num : ℚ) (operation : String) : CalcResult :=
  if operation = "add" then CalcResult.result (first_num + second_num)
  else if operation = "sub" then CalcResult.result (first_num - second_num)
  else if operation = "mul" then CalcResult.result (first_num * second_num)
  else if operation = "div" then
    if second_num = 0 then CalcResult.error "Division by zero"
    else CalcResult.result (first_num / second_num)
  else CalcResult.error ("Unsupported operation \x27" ++ operation ++ "\x27")

/-- C5: For all number pairs and op in add/sub/mul/div, except div with b=0,
calculator returns the mathematically correct result. -/
theorem calculator_correct_on_supported_ops (a b : ℚ) (op : String) :
    (op = "add" → calculator a b op = CalcResult.result (a + b)) ∧
    (op = "sub" → calculator a b op = CalcResult.result (a - b)) ∧
    (op = "mul" → calculator a b op = CalcResult.result (a * b)) ∧
    (op = "div" → b ≠ 0 → calculator a b op = CalcResult.result (a / b)) := by
  refine ⟨?_, ?_, ?_, ?_⟩ <;> intro h
  · subst h; rfl
  · subst h; rfl
  · subst h; rfl
  · intro hb
    subst h
    simp [calculator, hb]

/-- Witness for C5 at a concrete input: 6 / 3 computes to 2. -/
theorem calculator_correct_on_supported_ops_witness :
    calculator 6 3 "div" = CalcResult.result 2 := by
  have h := (calculator_correct_on_supported_ops 6 3 "div").2.2.2 rfl (by norm_num)
  rw [h]
  norm_num

/-- C6: calculator never raises: every input yields a structured payload,
with the division-by-zero and unsupported-operation error messages as
specified (the apostrophes around the op are part of the message). -/
theorem calculator_total_error_cases (a b : ℚ) (op : String) :
    ((∃ r, calculator a b op = CalcResult.result r) ∨
      (∃ m, calculator a b op = CalcResult.error m)) ∧
    (op = "div" → b = 0 → calculator a b op = CalcResult.error "Division by zero") ∧
    (op ≠ "add" → op ≠ "sub" → op ≠ "mul" → op ≠ "div" →
      calculator a b op =
        CalcResult.error ("Unsupported operation \x27" ++ op ++ "\x27")) := by
  refine ⟨?_, ?_, ?_⟩
  · rcases h : calculator a b op with r | m
    · exact Or.inl ⟨r, rfl⟩
    · exact Or.inr ⟨m, rfl⟩
  · intro h hb
    subst h; subst hb
    simp [calculator]
  · intro h1 h2 h3 h4
    simp [calculator, h1, h2, h3, h4]

/-- Witness for C6 at a concrete input: division by zero yields the
structured error payload. -/
theorem calculator_total_error_cases_witness :
    calculator 5 0 "div" = CalcResult.error "Division by zero" :=
  (calculator_total_error_cases 5 0 "div").2.1 rfl rfl

/-- Errors raised by the SQLite layer while executing a DELETE statement.
`str(e)` of a `noSuchTable` error is the sqlite message
"no such table: ...", which is exactly the text the source tests for with
substring matching; the messages of genuinely unexpected faults
(modelled by `other`) do not contain that text. -/
inductive SqlError where
  | noSuchTable (table : String)
  | other (msg : String)
deriving DecidableEq

/-- The chatbot.db SQLite database as far as `delete_thread` observes it:
each table is a name paired with the list of `thread_id` values of its
rows (other columns are irrelevant to the DELETE statements issued), and
`faulty` is a fault-injection set: executing a DELETE against a table
listed there raises an unexpected `sqlite3.OperationalError`. -/
structure DB where
  tables : List (String × List String)
  faulty : List String
deriving DecidableEq

/-- First table with the given name, as SQLite resolves a table name. -/
def lookupTable : List (String × List String) → String → Option (List String)
  | [], _ => none
  | (n, rows) :: rest, t => if n = t then some rows else lookupTable rest t

/-- Effect of `DELETE FROM t WHERE thread_id = ?` on the row lists:
the first table named `t` keeps only the rows whose thread_id differs. -/
def updateTable : List (String × List String) → String → String → List (String × List String)
  | [], _, _ => []
  | (n, rows) :: rest, t, tid =>
    if n = t then (n, rows.filter (fun r => decide (r ≠ tid))) :: rest
    else (n, rows) :: updateTable rest t tid

/-- Embedding of `cursor.execute("DELETE FROM t WHERE thread_id = ?", ...)`:
a missing table raises the "no such table" OperationalError, an injected
fault raises a different OperationalError, otherwise the matching rows of
the table are removed. -/
def sqlDelete (db : DB) (table tid : String) : Except SqlError DB :=
  match lookupTable db.tables table with
  | none => Except.error (SqlError.noSuchTable table)
  | some _ =>
    if table ∈ db.faulty then Except.error (SqlError.other "database is locked")
    else Except.ok { db with tables := updateTable db.tables table tid }

/-- The table names hard-coded in `delete_thread` (src/backend.py line 133). -/
def delete_thread_tables : List String := ["checkpoints", "checkpoint_writes", "checkpoint_blobs"]

/-- The `for table in tables` loop of `delete_thread` (lines 135-142):
each DELETE whose error message contains "no such table" is skipped with
`continue`; any other error is re-raised, aborting the loop. -/
def deleteLoop (tid : String) : DB → List String → Except SqlError DB
  | db, [] => Except.ok db
  | db, t :: ts =>
    match sqlDelete db t tid with
    | Except.ok db2 => deleteLoop tid db2 ts
    | Except.error (SqlError.noSuchTable _) => deleteLoop tid db ts
    | Except.error e => Except.error e

/-- Embedding of `delete_thread` (src/backend.py lines 127-149).  On a
clean run the deletions are committed and True is returned; the outer
`except Exception` catches any re-raised storage fault, prints it, and
returns False — the uncommitted deletions are dropped, so the database is
returned unchanged in that branch. -/
def delete_thread (db : DB) (tid : String) : Bool × DB :=
  match deleteLoop tid db delete_thread_tables with
  | Except.ok db2 => (true, db2)
  | Except.error _ => (false, db)

/-- Rows for the id are removed from the first table named `t` and no
other entry changes, at the granularity of name lookup. -/
theorem lookupTable_updateTable (l : List (String × List String)) (t t2 tid : String) :
    lookupTable (updateTable l t tid) t2 =
      if t2 = t then (lookupTable l t).map (fun rows => rows.filter (fun r => decide (r ≠ tid)))
      else lookupTable l t2 := by
  induction l with
  | nil =>
    by_cases h : t2 = t <;> simp [lookupTable, updateTable, h]
  | cons p rest ih =>
    obtain ⟨n, rows⟩ := p
    by_cases hn : n = t
    · subst hn
      by_cases h2 : n = t2
      · subst h2
        simp [updateTable, lookupTable]
      · have ht2 : ¬ t2 = n := fun hc => h2 hc.symm
        simp [updateTable, lookupTable, h2, ht2]
    · by_cases h2 : n = t2
      · subst h2
        simp [updateTable, lookupTable, hn]
      · simp [updateTable, lookupTable, hn, h2, ih]

/-- Deleting from an absent table leaves the schema untouched. -/
theorem updateTable_absent (l : List (String × List String)) (t tid : String)
    (h : lookupTable l t = none) : updateTable l t tid = l := by
  induction l with
  | nil => rfl
  | cons p rest ih =>
    obtain ⟨n, rows⟩ := p
    by_cases hn : n = t
    · simp [lookupTable, hn] at h
    · simp [lookupTable, hn] at h
      simp [updateTable, hn, ih h]

/-- Deleting rows of an id that has none is the identity. -/
theorem updateTable_of_not_mem (l : List (String × List String)) (t tid : String)
    (h : ∀ rows, lookupTable l t = some rows → tid ∉ rows) :
    updateTable l t tid = l := by
  induction l with
  | nil => rfl
  | cons p rest ih =>
    obtain ⟨n, rows⟩ := p
    by_cases hn : n = t
    · subst hn
      have hrows : tid ∉ rows := h rows (by simp [lookupTable])
      have hfil : rows.filter (fun r => decide (r ≠ tid)) = rows :=
        List.filter_eq_self.mpr (fun a ha => decide_eq_true (fun hc => hrows (hc ▸ ha)))
      have hstep : updateTable ((n, rows) :: rest) n tid =
          (n, rows.filter (fun r => decide (r ≠ tid))) :: rest := by
        simp [updateTable]
      rw [hstep, hfil]
    · have : ∀ rows2, lookupTable rest t = some rows2 → tid ∉ rows2 := by
        intro rows2 h2
        exact h rows2 (by simp [lookupTable, hn, h2])
      simp [updateTable, hn, ih this]

/-- With no injected faults, the delete loop always succeeds and its
effect on the schema is the fold of per-table row removal: a missing
table contributes the identity (the `continue` branch). -/
theorem deleteLoop_nofault (tid : String) (ts : List String) (db : DB)
    (h : db.faulty = []) :
    deleteLoop tid db ts =
      Except.ok { db with tables := ts.foldl (fun l t => updateTable l t tid) db.tables } := by
  induction ts generalizing db with
  | nil => simp [deleteLoop]
  | cons t ts ih =>
    rcases hl : lookupTable db.tables t with _ | rows
    · have habs : updateTable db.tables t tid = db.tables := updateTable_absent _ _ _ hl
      simp [deleteLoop, sqlDelete, hl, ih db h, habs]
    · have hf : t ∉ db.faulty := by simp [h]
      simp only [deleteLoop, sqlDelete, hl, if_neg hf]
      exact ih _ h

/-- A store state as the bundled SqliteSaver lays it out: besides the
`checkpoints` table it persists pending writes for a thread in a table
named `writes`, a name that is not among the tables `delete_thread`
issues DELETE statements against. -/
def sqliteSaverStore : DB :=
  { tables := [("checkpoints", ["t1"]), ("writes", ["t1"])], faulty := [] }

/-- C3 counterexample: on a store whose internal tables are `checkpoints`
and `writes`, both holding a row for thread "t1", delete_thread reports
success yet the row for "t1" in the `writes` table persists — persisted
state for the id remains in the store. -/
theorem delete_thread_leaves_row_in_writes_table :
    (delete_thread sqliteSaverStore "t1").1 = true ∧
    lookupTable (delete_thread sqliteSaverStore "t1").2.tables "writes" = some ["t1"] := by
  decide

/-- C3 (amended): with no storage faults, delete_thread succeeds and
removes the rows for the id from the tables named checkpoints,
checkpoint_writes and checkpoint_blobs; every other table of the store is
left untouched, so persisted state for the id survives outside the three
hard-coded names. -/
theorem delete_thread_removes_only_named_tables (db : DB) (tid : String)
    (h : db.faulty = []) :
    (delete_thread db tid).1 = true ∧
    (∀ t, t ∈ delete_thread_tables →
      lookupTable (delete_thread db tid).2.tables t =
        (lookupTable db.tables t).map (fun rows => rows.filter (fun r => decide (r ≠ tid)))) ∧
    (∀ t, t ∉ delete_thread_tables →
      lookupTable (delete_thread db tid).2.tables t = lookupTable db.tables t) := by
  have hloop := deleteLoop_nofault tid delete_thread_tables db h
  have hdt : delete_thread db tid =
      (true, { db with
        tables := delete_thread_tables.foldl (fun l t => updateTable l t tid) db.tables }) := by
    simp [delete_thread, hloop]
  have hfold : delete_thread_tables.foldl (fun l t => updateTable l t tid) db.tables =
      updateTable (updateTable (updateTable db.tables "checkpoints" tid)
        "checkpoint_writes" tid) "checkpoint_blobs" tid := rfl
  refine ⟨by simp [hdt], ?_, ?_⟩
  · intro t ht
    rw [hdt]
    simp only [delete_thread_tables, List.mem_cons, List.not_mem_nil, or_false] at ht
    rcases ht with ht | ht | ht <;> subst ht <;>
      simp [hfold, lookupTable_updateTable]
  · intro t ht
    rw [hdt]
    simp only [delete_thread_tables, List.mem_cons, List.not_mem_nil, or_false,
      not_or] at ht
    obtain ⟨h1, h2, h3⟩ := ht
    simp only [hfold, lookupTable_updateTable, if_neg h1, if_neg h2, if_neg h3]

/-- Witness for the amended C3 at a concrete store. -/
theorem delete_thread_removes_only_named_tables_witness :
    (delete_thread ⟨[("checkpoints", ["a"])], []⟩ "a").1 = true :=
  (delete_thread_removes_only_named_tables ⟨[("checkpoints", ["a"])], []⟩ "a" rfl).1

/-- A store state with a fault injected on the `checkpoints` table:
executing DELETE against it raises an unexpected OperationalError. -/
def faultyStore : DB :=
  { tables := [("checkpoints", ["t1"])], faulty := ["checkpoints"] }

/-- C4 counterexample: a genuinely unexpected storage fault (not a
"no such table" error) is raised inside the deletion loop, yet
delete_thread returns normally with False to its caller — the fault is
caught by the outer handler and does not propagate. -/
theorem delete_thread_swallows_genuine_fault :
    deleteLoop "t1" faultyStore delete_thread_tables =
      Except.error (SqlError.other "database is locked") ∧
    delete_thread faultyStore "t1" = (false, faultyStore) :=
  ⟨rfl, rfl⟩

/-- Any error escaping the deletion loop is a genuine fault: the
"no such table" errors are always consumed by the `continue` branch. -/
theorem deleteLoop_error_not_noSuchTable (tid : String) (ts : List String) (db : DB)
    (e : SqlError) (h : deleteLoop tid db ts = Except.error e) :
    ∀ t2, e ≠ SqlError.noSuchTable t2 := by
  induction ts generalizing db with
  | nil => simp [deleteLoop] at h
  | cons t ts ih =>
    rcases hs : sqlDelete db t tid with err | db2
    · rcases err with t3 | m
      · simp only [deleteLoop, hs] at h
        exact ih db h
      · simp only [deleteLoop, hs, Except.error.injEq] at h
        subst h
        intro t2 hc
        exact SqlError.noConfusion hc
    · simp only [deleteLoop, hs] at h
      exact ih db2 h

/-- C4 (amended): "no such table" is treated as nothing-to-delete (with no
injected faults delete_thread returns True even when tables are missing);
a "no such table" error never escapes the deletion loop; and any genuinely
unexpected storage fault raised during deletion is caught by the outer
handler, so delete_thread returns False to its caller instead of letting
the fault propagate. -/
theorem delete_thread_error_policy (db : DB) (tid : String) :
    (db.faulty = [] → (delete_thread db tid).1 = true) ∧
    (∀ e, deleteLoop tid db delete_thread_tables = Except.error e →
      (∀ t, e ≠ SqlError.noSuchTable t) ∧ delete_thread db tid = (false, db)) := by
  constructor
  · intro h
    simp [delete_thread, deleteLoop_nofault tid delete_thread_tables db h]
  · intro e he
    exact ⟨deleteLoop_error_not_noSuchTable tid delete_thread_tables db e he,
      by simp [delete_thread, he]⟩

/-- Witness for the amended C4: a fault-free store with only a
`checkpoints` table yields True, and an injected fault yields a normal
False return with the store unchanged. -/
theorem delete_thread_error_policy_witness :
    (delete_thread ⟨[("checkpoints", [])], []⟩ "w").1 = true ∧
    delete_thread ⟨[("checkpoints", ["x"])], ["checkpoints"]⟩ "x" =
      (false, ⟨[("checkpoints", ["x"])], ["checkpoints"]⟩) :=
  ⟨(delete_thread_error_policy ⟨[("checkpoints", [])], []⟩ "w").1 rfl,
    ((delete_thread_error_policy ⟨[("checkpoints", ["x"])], ["checkpoints"]⟩ "x").2
      (SqlError.other "database is locked") rfl).2⟩

/-- C7: deleting a thread id that was never created (no table holds a row
for it, no storage fault) raises nothing inside the deletion loop and
returns True with the database unchanged: an idempotent no-op. -/
theorem delete_thread_nonexistent_idempotent (db : DB) (tid : String)
    (h1 : db.faulty = [])
    (h2 : ∀ t rows, lookupTable db.tables t = some rows → tid ∉ rows) :
    deleteLoop tid db delete_thread_tables = Except.ok db ∧
    delete_thread db tid = (true, db) := by
  have e1 : updateTable db.tables "checkpoints" tid = db.tables :=
    updateTable_of_not_mem _ _ _ (fun rows => h2 "checkpoints" rows)
  have e2 : updateTable db.tables "checkpoint_writes" tid = db.tables :=
    updateTable_of_not_mem _ _ _ (fun rows => h2 "checkpoint_writes" rows)
  have e3 : updateTable db.tables "checkpoint_blobs" tid = db.tables :=
    updateTable_of_not_mem _ _ _ (fun rows => h2 "checkpoint_blobs" rows)
  have hfold : delete_thread_tables.foldl (fun l t => updateTable l t tid) db.tables =
      db.tables := by
    show updateTable (updateTable (updateTable db.tables "checkpoints" tid)
      "checkpoint_writes" tid) "checkpoint_blobs" tid = db.tables
    rw [e1, e2, e3]
  constructor
  · rw [deleteLoop_nofault tid delete_thread_tables db h1, hfold]
  · simp [delete_thread, deleteLoop_nofault tid delete_thread_tables db h1, hfold]

/-- Witness for C7: deleting from a fresh store (no tables yet) returns
True and leaves the store as it was. -/
theorem delete_thread_nonexistent_idempotent_witness :
    delete_thread ⟨[], []⟩ "ghost" = (true, ⟨[], []⟩) :=
  (delete_thread_nonexistent_idempotent ⟨[], []⟩ "ghost" rfl
    (fun t rows hr => by simp [lookupTable] at hr)).2

/-- Message roles, as the isinstance checks of the source distinguish
the message classes. -/
inductive Role where
  | human
  | ai
  | tool
deriving DecidableEq

/-- A message or streamed message chunk: its class tag and its text
content. -/
structure Msg where
  role : Role
  content : String
deriving DecidableEq

/-- One run of the streaming iteration inside `generate_response` as the
loop observes it: the message chunks the iterator yielded, and `none`
when iteration finished normally or `some msg` when an exception with
text `msg` was raised after the listed chunks were processed. -/
structure StreamRun where
  chunks : List Msg
  outcome : Option String
deriving DecidableEq

inductive EventType where
  | chunk
  | complete
  | error
deriving DecidableEq

/-- One server-sent event before JSON serialization: the payload dict of
the source has exactly these three fields. -/
structure Event where
  type : EventType
  content : String
  thread_id : String
deriving DecidableEq

def isChunkEvent (e : Event) : Bool :=
  match e.type with
  | EventType.chunk => true
  | _ => false

def isTerminalEvent (e : Event) : Bool :=
  match e.type with
  | EventType.complete => true
  | EventType.error => true
  | _ => false

/-- The guard of the streaming loop body (line 190): an assistant chunk
whose content is non-empty (Python truthiness of the content string). -/
def emitsChunk (c : Msg) : Bool :=
  decide (c.role = Role.ai ∧ c.content ≠ "")

/-- Loop body of `generate_response` (lines 190-197): on an assistant
chunk with non-empty content, yield a chunk event and extend
full_response; otherwise leave the state alone. -/
def streamStep (tid : String) (acc : List Event × String) (c : Msg) : List Event × String :=
  if c.role = Role.ai ∧ c.content ≠ "" then
    (acc.1 ++ [⟨EventType.chunk, c.content, tid⟩], acc.2 ++ c.content)
  else acc

/-- Embedding of the `generate_response` generator (lines 181-212): the
list of events it yields.  On normal completion of the chunk loop, one
complete event carrying full_response follows the chunk events; when the
stream raised, the chunk events already yielded stay and a single error
event carrying the exception text follows instead. -/
def generateResponse (tid : String) (run : StreamRun) : List Event :=
  let st := run.chunks.foldl (streamStep tid) ([], "")
  match run.outcome with
  | none => st.1 ++ [⟨EventType.complete, st.2, tid⟩]
  | some msg => st.1 ++ [⟨EventType.error, msg, tid⟩]

/-- The chunk event yielded for an assistant chunk. -/
def mkChunkEvent (tid : String) (c : Msg) : Event :=
  ⟨EventType.chunk, c.content, tid⟩

theorem string_join_cons (s : String) (ss : List String) :
    String.join (s :: ss) = s ++ String.join ss := by
  apply String.ext
  simp [String.data_append]

/-- The streaming loop, from any starting state, appends one chunk event
per emitted assistant chunk and concatenates their contents onto
full_response. -/
theorem foldl_streamStep (tid : String) (cs : List Msg) (evs : List Event) (full : String) :
    cs.foldl (streamStep tid) (evs, full) =
      (evs ++ (cs.filter emitsChunk).map (mkChunkEvent tid),
        full ++ String.join ((cs.filter emitsChunk).map Msg.content)) := by
  induction cs generalizing evs full with
  | nil => simp [String.join]
  | cons c cs ih =>
    by_cases h : (c.role = Role.ai ∧ c.content ≠ "")
    · have he : emitsChunk c = true := decide_eq_true h
      rw [List.foldl_cons,
        show streamStep tid (evs, full) c =
          (evs ++ [mkChunkEvent tid c], full ++ c.content) from by
            simp [streamStep, if_pos h, mkChunkEvent],
        ih, List.filter_cons, if_pos he]
      simp [string_join_cons, mkChunkEvent, String.append_assoc]
    · have he : emitsChunk c = false := decide_eq_false h
      rw [List.foldl_cons,
        show streamStep tid (evs, full) c = (evs, full) from by simp [streamStep, if_neg h],
        ih, List.filter_cons, if_neg (by simp [he])]

/-- Shape of a successful run: the chunk events in order, then the
complete event carrying their concatenated contents. -/
theorem generateResponse_none (tid : String) (cs : List Msg) :
    generateResponse tid ⟨cs, none⟩ =
      (cs.filter emitsChunk).map (mkChunkEvent tid) ++
        [⟨EventType.complete, String.join ((cs.filter emitsChunk).map Msg.content), tid⟩] := by
  unfold generateResponse
  rw [foldl_streamStep]
  simp [String.empty_append]

/-- Shape of a failed run: the chunk events yielded so far, then the
error event carrying the exception text. -/
theorem generateResponse_some (tid : String) (cs : List Msg) (msg : String) :
    generateResponse tid ⟨cs, some msg⟩ =
      (cs.filter emitsChunk).map (mkChunkEvent tid) ++ [⟨EventType.error, msg, tid⟩] := by
  unfold generateResponse
  rw [foldl_streamStep]
  simp

/-- Every event produced by mapping `mkChunkEvent` is a chunk event, so
the chunk filter keeps all of them. -/
theorem filter_isChunk_map_mk (tid : String) (l : List Msg) :
    (l.map (mkChunkEvent tid)).filter isChunkEvent = l.map (mkChunkEvent tid) :=
  List.filter_eq_self.mpr (fun e he => by
    obtain ⟨c, _, rfl⟩ := List.mem_map.mp he
    rfl)

theorem map_content_map_mk (tid : String) (l : List Msg) :
    (l.map (mkChunkEvent tid)).map Event.content = l.map Msg.content := by
  rw [List.map_map]
  rfl

/-- C1: on a successfully completed chat turn, the contents of the chunk
events, concatenated in emission order, equal exactly the content of the
complete event. -/
theorem chunk_concat_eq_complete_content (tid : String) (cs : List Msg) :
    ∃ full,
      (generateResponse tid ⟨cs, none⟩).getLast? =
        some ⟨EventType.complete, full, tid⟩ ∧
      String.join (((generateResponse tid ⟨cs, none⟩).filter isChunkEvent).map Event.content)
        = full := by
  refine ⟨String.join ((cs.filter emitsChunk).map Msg.content), ?_, ?_⟩
  · rw [generateResponse_none, List.getLast?_concat]
  · rw [generateResponse_none, List.filter_append, filter_isChunk_map_mk]
    have hterm : List.filter isChunkEvent
        [(⟨EventType.complete, String.join ((cs.filter emitsChunk).map Msg.content), tid⟩ :
          Event)] = [] := rfl
    rw [hterm, List.append_nil, map_content_map_mk]

/-- C2: every run of the generator emits exactly one terminal event
(complete or error), it is the last event emitted, and every event
before it is a chunk event. -/
theorem exactly_one_terminal_event (tid : String) (run : StreamRun) :
    (generateResponse tid run).countP isTerminalEvent = 1 ∧
    (generateResponse tid run).dropLast.all isChunkEvent = true ∧
    ∃ e, (generateResponse tid run).getLast? = some e ∧ isTerminalEvent e = true := by
  obtain ⟨cs, outcome⟩ := run
  have hbody : ∀ (e : Event), ∀ he : isTerminalEvent e = true,
      ((cs.filter emitsChunk).map (mkChunkEvent tid) ++ [e]).countP isTerminalEvent = 1 ∧
      ((cs.filter emitsChunk).map (mkChunkEvent tid) ++ [e]).dropLast.all isChunkEvent = true ∧
      ∃ x, ((cs.filter emitsChunk).map (mkChunkEvent tid) ++ [e]).getLast? = some x ∧
        isTerminalEvent x = true := by
    intro e he
    refine ⟨?_, ?_, e, List.getLast?_concat _, he⟩
    · rw [List.countP_append, List.countP_map]
      have h0 : (cs.filter emitsChunk).countP (isTerminalEvent ∘ mkChunkEvent tid) = 0 :=
        List.countP_eq_zero.mpr (fun c _ => by simp [Function.comp, mkChunkEvent, isTerminalEvent])
      rw [h0]
      simp [List.countP_cons, he]
    · rw [List.dropLast_concat]
      exact List.all_eq_true.mpr (fun x hx => by
        obtain ⟨c, _, rfl⟩ := List.mem_map.mp hx
        rfl)
  cases outcome with
  | none =>
    rw [generateResponse_none]
    exact hbody _ rfl
  | some msg =>
    rw [generateResponse_some]
    exact hbody _ rfl

/-- C10: the chunk events of any run are, in order, exactly the
assistant chunks with non-empty content, and every chunk event carries
non-empty content — tool chunks and empty assistant chunks yield no
event. -/
theorem chunk_events_nonempty_ai_only (tid : String) (run : StreamRun) :
    ((generateResponse tid run).filter isChunkEvent).map Event.content =
      (run.chunks.filter emitsChunk).map Msg.content ∧
    ((generateResponse tid run).filter isChunkEvent).all
      (fun e => decide (e.content ≠ "")) = true := by
  obtain ⟨cs, outcome⟩ := run
  have hshape : ∀ (e : Event), isChunkEvent e = false →
      ((cs.filter emitsChunk).map (mkChunkEvent tid) ++ [e]).filter isChunkEvent =
        (cs.filter emitsChunk).map (mkChunkEvent tid) := by
    intro e he
    rw [List.filter_append, filter_isChunk_map_mk]
    simp [List.filter_cons, he]
  have hall : ((cs.filter emitsChunk).map (mkChunkEvent tid)).all
      (fun e => decide (e.content ≠ "")) = true := by
    refine List.all_eq_true.mpr (fun x hx => ?_)
    obtain ⟨c, hc, rfl⟩ := List.mem_map.mp hx
    have hc2 : emitsChunk c = true := (List.mem_filter.mp hc).2
    have : c.role = Role.ai ∧ c.content ≠ "" := of_decide_eq_true hc2
    exact decide_eq_true this.2
  cases outcome with
  | none =>
    rw [generateResponse_none,
      hshape ⟨EventType.complete, String.join ((cs.filter emitsChunk).map Msg.content), tid⟩ rfl,
      map_content_map_mk]
    exact ⟨rfl, hall⟩
  | some msg =>
    rw [generateResponse_some, hshape ⟨EventType.error, msg, tid⟩ rfl, map_content_map_mk]
    exact ⟨rfl, hall⟩

/-- The request body of the chat endpoint: a message and an optional
thread id. -/
structure ChatRequest where
  message : String
  thread_id : Option String
deriving DecidableEq

/-- Embedding of `request.thread_id or str(uuid.uuid4())` (line 178):
None and the empty string are both falsy in Python, so either is
replaced by the freshly generated uuid. -/
def chooseThreadId (req : ChatRequest) (freshUuid : String) : String :=
  match req.thread_id with
  | none => freshUuid
  | some s => if s = "" then freshUuid else s

/-- Every event the generator yields carries the thread id it was
started with. -/
theorem generateResponse_thread_id (tid : String) (run : StreamRun) :
    (generateResponse tid run).all (fun e => decide (e.thread_id = tid)) = true := by
  obtain ⟨cs, outcome⟩ := run
  have hbody : ∀ (e : Event), e.thread_id = tid →
      ((cs.filter emitsChunk).map (mkChunkEvent tid) ++ [e]).all
        (fun x => decide (x.thread_id = tid)) = true := by
    intro e he
    refine List.all_eq_true.mpr (fun x hx => ?_)
    rcases List.mem_append.mp hx with hx | hx
    · obtain ⟨c, _, rfl⟩ := List.mem_map.mp hx
      exact decide_eq_true rfl
    · rw [List.mem_singleton.mp hx]
      exact decide_eq_true he
  cases outcome with
  | none => rw [generateResponse_none]; exact hbody _ rfl
  | some msg => rw [generateResponse_some]; exact hbody _ rfl

/-- C9: a chat request whose thread_id field is the empty string gets the
freshly generated uuid as the thread id of the whole turn, every emitted
event carries that uuid, and — the uuid being non-empty — the empty
string is never used as a thread id. -/
theorem empty_thread_id_gets_fresh_uuid (msg freshUuid : String) (run : StreamRun)
    (h : freshUuid ≠ "") :
    chooseThreadId ⟨msg, some ""⟩ freshUuid = freshUuid ∧
    (generateResponse (chooseThreadId ⟨msg, some ""⟩ freshUuid) run).all
      (fun e => decide (e.thread_id = freshUuid ∧ e.thread_id ≠ "")) = true := by
  have hc : chooseThreadId ⟨msg, some ""⟩ freshUuid = freshUuid := rfl
  refine ⟨hc, ?_⟩
  rw [hc]
  refine List.all_eq_true.mpr (fun e he => ?_)
  have := List.all_eq_true.mp (generateResponse_thread_id freshUuid run) e he
  have heq : e.thread_id = freshUuid := of_decide_eq_true this
  exact decide_eq_true ⟨heq, heq ▸ h⟩

/-- Witness for C9 at a concrete request and stream run. -/
theorem empty_thread_id_gets_fresh_uuid_witness :
    chooseThreadId ⟨"hi", some ""⟩ "u-1" = "u-1" ∧
    (generateResponse (chooseThreadId ⟨"hi", some ""⟩ "u-1")
        ⟨[⟨Role.ai, "hello"⟩], none⟩).all
      (fun e => decide (e.thread_id = "u-1" ∧ e.thread_id ≠ "")) = true :=
  empty_thread_id_gets_fresh_uuid "hi" "u-1" ⟨[⟨Role.ai, "hello"⟩], none⟩ (by decide)

/-- A formatted history entry as returned by the messages endpoint. -/
structure RoleContent where
  role : String
  content : String
deriving DecidableEq

/-- Loop body of the formatting loop in `get_thread_messages`
(src/backend.py lines 259-269): human messages become user entries,
assistant messages with non-empty content become assistant entries, and
every other message (tool messages, empty assistant messages) is
skipped. -/
def formatStep (acc : List RoleContent) (m : Msg) : List RoleContent :=
  match m.role with
  | Role.human => acc ++ [⟨"user", m.content⟩]
  | Role.ai => if m.content ≠ "" then acc ++ [⟨"assistant", m.content⟩] else acc
  | Role.tool => acc

/-- Embedding of the formatting loop of `get_thread_messages`
(lines 258-271) over the thread's stored message sequence. -/
def get_thread_messages (msgs : List Msg) : List RoleContent :=
  msgs.foldl formatStep []

/-- The messages that survive into the display view: user messages, and
assistant messages with non-empty content. -/
def displayed (m : Msg) : Bool :=
  decide (m.role = Role.human ∨ (m.role = Role.ai ∧ m.content ≠ ""))

/-- How a surviving message is rendered. -/
def toDisplay (m : Msg) : RoleContent :=
  ⟨match m.role with
    | Role.human => "user"
    | _ => "assistant", m.content⟩

theorem foldl_formatStep (msgs : List Msg) (acc : List RoleContent) :
    msgs.foldl formatStep acc = acc ++ (msgs.filter displayed).map toDisplay := by
  induction msgs generalizing acc with
  | nil => simp
  | cons m msgs ih =>
    rcases hr : m.role with _ | _ | _
    · have hd : displayed m = true := decide_eq_true (Or.inl hr)
      rw [List.foldl_cons, show formatStep acc m = acc ++ [⟨"user", m.content⟩] from by
          simp [formatStep, hr],
        ih, List.filter_cons, if_pos hd]
      simp [toDisplay, hr]
    · by_cases hc : m.content = ""
      · have hd : displayed m = false := by
          apply decide_eq_false
          rintro (h | h)
          · rw [hr] at h; exact Role.noConfusion h
          · exact h.2 hc
        rw [List.foldl_cons, show formatStep acc m = acc from by simp [formatStep, hr, hc],
          ih, List.filter_cons, if_neg (by simp [hd])]
      · have hd : displayed m = true := decide_eq_true (Or.inr ⟨hr, hc⟩)
        rw [List.foldl_cons, show formatStep acc m = acc ++ [⟨"assistant", m.content⟩] from by
            simp [formatStep, hr, hc],
          ih, List.filter_cons, if_pos hd]
        simp [toDisplay, hr]
    · have hd : displayed m = false := by
        apply decide_eq_false
        rintro (h | h) <;> rw [hr] at *
        · exact Role.noConfusion h
        · exact Role.noConfusion h.1
      rw [List.foldl_cons, show formatStep acc m = acc from by simp [formatStep, hr],
        ih, List.filter_cons, if_neg (by simp [hd])]

/-- C8: the displayed history is the stored message sequence restricted,
in stored order, to user messages and non-empty assistant messages,
rendered as role/content pairs whose role is always user or assistant;
tool messages and empty assistant messages never appear. -/
theorem get_thread_messages_display_filter (msgs : List Msg) :
    get_thread_messages msgs = (msgs.filter displayed).map toDisplay ∧
    (get_thread_messages msgs).all
      (fun rc => decide (rc.role = "user" ∨ rc.role = "assistant")) = true := by
  have h1 : get_thread_messages msgs = (msgs.filter displayed).map toDisplay := by
    rw [get_thread_messages, foldl_formatStep]
    rfl
  refine ⟨h1, ?_⟩
  rw [h1]
  refine List.all_eq_true.mpr (fun rc hrc => ?_)
  obtain ⟨m, _, rfl⟩ := List.mem_map.mp hrc
  rcases hr : m.role with _ | _ | _ <;> simp [toDisplay, hr]

end NexaAgent
